import Mathlib

/-!
Verification of the thread-viewer filter/search core (src/main.js).

The source file holds two revisions of the same script. The first revision
(lines 1-330) implements search only, via `performSearch`. The second
revision (lines 331-842) adds keyword and date-range filters; its filtering
core is `filterThreads` (lines 672-722), driven by the module state
`activeFilters` and a search term, plus `applyFilters` (lines 743-769)
building the filter state and a small view controller made of
`showThreadDetail`, `showThreadsView`, `toggleFilterPanel` and the Escape
key handler of `setupEventListeners`.

The embedding below translates that JavaScript into Lean:
  - JS objects whose fields may be absent become structures with `Option`
    fields; reading a missing field where the source would call a method on
    `undefined` (a TypeError) is modelled with `Except Unit`.
  - `Array.prototype.filter` with a possibly throwing callback becomes
    `filterE`, sequencing the callback left to right in the `Except` monad.
  - `new Date(y, m, d, h, mi, s)` becomes `jsDateMillis`, the epoch
    millisecond count of that (normalized) civil time. The source compares
    instants in one implied timezone (no zone appears in the data), so the
    embedding fixes the zone offset to zero.
  - the timestamp regular expression of `filterThreads` (line 700) becomes
    an explicit matcher, `matchTimeAt`/`searchTime`, reproducing the
    leftmost-match search and the greedy one-or-two digit groups.
-/

/-- A reply record (§3 of the spec; consumed at lines 680-682 and 696-714
of the second revision). `user` is read behind a truthiness guard and
`time` behind a `!reply.time` guard in the source, so both are `Option`;
the body `reply` is read unguarded. -/
structure Reply where
  user : Option String
  time : Option String
  reply : String
deriving DecidableEq

/-- A thread record. `post_title`, `keyword` and `username` are read
unguarded by the search criterion (a missing one would be a TypeError in
the source), `replies` is always read behind a truthiness guard. -/
structure Thread where
  thread_number : String
  post_title : Option String
  keyword : Option String
  username : Option String
  replies : Option (List Reply)
deriving DecidableEq

/-- The `activeFilters` module state of the second revision (lines
342-346): selected keyword chips and the optional date-range endpoints,
held as epoch milliseconds. -/
structure FilterState where
  keywords : List String
  startDate : Option Int
  endDate : Option Int
deriving DecidableEq

/-! ## String primitives

`String.prototype.toLowerCase` and `String.prototype.includes`, written
over the character list of the string so that they evaluate inside the
kernel. The data of this program is ASCII plus CJK punctuation, where the
simple ASCII case mapping agrees with the JS one. -/

/-- ASCII lower-casing of one character, as `toLowerCase` maps it. -/
def charToLower (c : Char) : Char :=
  if 'A' ≤ c ∧ c ≤ 'Z' then Char.ofNat (c.toNat + 32) else c

/-- `s.toLowerCase()`. -/
def jsToLowerCase (s : String) : String :=
  ⟨s.data.map charToLower⟩

/-- Boolean test that `needle` occurs as a prefix of `hay`. -/
def listPrefixOf : List Char → List Char → Bool
  | [], _ => true
  | _ :: _, [] => false
  | a :: as, b :: bs => a = b && listPrefixOf as bs

/-- Boolean test that `needle` occurs contiguously inside `hay`. -/
def listInfixOf : List Char → List Char → Bool
  | needle, [] => needle.isEmpty
  | needle, b :: bs => listPrefixOf needle (b :: bs) || listInfixOf needle bs

/-- `hay.includes(needle)` (line 677 and friends). -/
def strIncludes (hay needle : String) : Bool :=
  listInfixOf needle.data hay.data

/-- `Array.prototype.includes` on an array of strings (line 689);
`includes(undefined)` on such an array is simply `false`, which the
`Option`-typed caller below accounts for. -/
def jsIncludes : List String → String → Bool
  | [], _ => false
  | k :: ks, x => (k = x) || jsIncludes ks x

/-! ## Timestamp parsing (lines 697-713)

The source matches `reply.time` against
`/(\d{4})年(\d{1,2})月(\d{1,2})日\s+(\d{1,2}):(\d{1,2}):(\d{1,2})/`
(no anchors: the first, leftmost match anywhere in the string wins) and
feeds the six captured numbers to `new Date`, with the month decremented
to the 0-indexed constructor convention.

Each `\d{1,2}` group here is followed by a character no digit can equal
(`月`, `日`, `:`) or ends the whole pattern, and `\s+` is followed by a
digit, so the greedy backtracking of the regular expression engine
collapses to the deterministic matchers below: try two digits, and if the
following literal is not there fall back to one digit. -/

/-- Numeric value of a decimal digit character. -/
def digitVal (c : Char) : Nat := c.toNat - 48

/-- The character class `\s` of JS regular expressions. -/
def isJsSpace (c : Char) : Bool :=
  c = ' ' || c = '\t' || c = '\n' || c = '\x0b' || c = '\x0c' || c = '\r' ||
  c = '\u00A0' || c = '\u1680' || ('\u2000' ≤ c && c ≤ '\u200A') ||
  c = '\u2028' || c = '\u2029' || c = '\u202F' || c = '\u205F' ||
  c = '\u3000' || c = '\uFEFF'

/-- Match `\d{4}` followed by the literal `lit`, returning the numeric
value of the four digits and the remaining input. -/
def matchD4Then (lit : Char) (cs : List Char) : Option (Nat × List Char) :=
  match cs with
  | a :: b :: c :: d :: x :: rest =>
    if a.isDigit && b.isDigit && c.isDigit && d.isDigit && x = lit then
      some (1000 * digitVal a + 100 * digitVal b + 10 * digitVal c + digitVal d, rest)
    else none
  | _ => none

/-- Match `\d{1,2}` followed by the literal `lit` (greedy: two digits are
preferred, one is the fallback), returning the value and the rest. -/
def matchD12Then (lit : Char) (cs : List Char) : Option (Nat × List Char) :=
  match cs with
  | a :: b :: x :: rest =>
    if a.isDigit && b.isDigit && x = lit then
      some (10 * digitVal a + digitVal b, rest)
    else if a.isDigit && b = lit then
      some (digitVal a, x :: rest)
    else none
  | [a, b] =>
    if a.isDigit && b = lit then some (digitVal a, []) else none
  | _ => none

/-- Match `\d{1,2}` at the end of the pattern (greedy, nothing after it). -/
def matchD12End (cs : List Char) : Option Nat :=
  match cs with
  | a :: b :: _ =>
    if a.isDigit && b.isDigit then some (10 * digitVal a + digitVal b)
    else if a.isDigit then some (digitVal a)
    else none
  | [a] => if a.isDigit then some (digitVal a) else none
  | [] => none

/-- Match `\s+` (at least one JS whitespace character, maximal run). -/
def matchWsThenSkip (cs : List Char) : Option (List Char) :=
  match cs with
  | c :: rest => if isJsSpace c then some (rest.dropWhile isJsSpace) else none
  | [] => none

/-- Attempt the whole timestamp pattern at the head of the input,
producing `(year, month, day, hour, minute, second)` as captured. -/
def matchTimeAt (cs : List Char) : Option (Nat × Nat × Nat × Nat × Nat × Nat) := do
  let (y, cs) ← matchD4Then '年' cs
  let (mo, cs) ← matchD12Then '月' cs
  let (d, cs) ← matchD12Then '日' cs
  let cs ← matchWsThenSkip cs
  let (h, cs) ← matchD12Then ':' cs
  let (mi, cs) ← matchD12Then ':' cs
  let s ← matchD12End cs
  some (y, mo, d, h, mi, s)

/-- Unanchored search: the pattern is tried at every position, leftmost
match first, as `String.prototype.match` does. -/
def searchTime : List Char → Option (Nat × Nat × Nat × Nat × Nat × Nat)
  | [] => matchTimeAt []
  | c :: rest =>
    match matchTimeAt (c :: rest) with
    | some r => some r
    | none => searchTime rest

/-- `reply.time.match(...)` of line 700, on the character list of the
string: the six captured fields, or `none` when the pattern is absent. -/
def parseReplyTime (s : String) : Option (Nat × Nat × Nat × Nat × Nat × Nat) :=
  searchTime s.data

/-! ## `new Date(y, m, d, h, mi, s)` as epoch milliseconds

`filterThreads` builds `replyDate` with the six parsed fields (month
0-indexed) and compares Date objects, which compares their epoch
millisecond values. The constructor normalizes out-of-range months into
the year and out-of-range days into the month (both are affine in the
argument), and maps a year argument in `0..99` to `1900+year`. With the
zone offset fixed at zero, the value is computed from the proleptic
Gregorian day number. -/

/-- Day number (days since 1970-01-01) of the civil date `(y, m, d)`,
with `m` in `1..12`; `d` may exceed the month length, each extra unit
adding one day, exactly as the Date constructor treats it. -/
def daysFromCivil (y m d : Int) : Int :=
  let yAdj := y - (if m ≤ 2 then 1 else 0)
  let era := Int.fdiv yAdj 400
  let yoe := yAdj - era * 400
  let mp := m + (if 2 < m then -3 else 9)
  let doy := Int.fdiv (153 * mp + 2) 5 + d - 1
  let doe := yoe * 365 + Int.fdiv yoe 4 - Int.fdiv yoe 100 + doy
  era * 146097 + doe - 719468

/-- Epoch milliseconds of `new Date(y, mon, d, h, mi, s)` (month
0-indexed, as passed at line 706). -/
def jsDateMillis (y mon d h mi s : Int) : Int :=
  let yFull := if 0 ≤ y ∧ y ≤ 99 then y + 1900 else y
  let ym := yFull * 12 + mon
  let yN := Int.fdiv ym 12
  let mN := ym - 12 * yN + 1
  daysFromCivil yN mN d * 86400000 + h * 3600000 + mi * 60000 + s * 1000

/-- The instant of a reply timestamp string: parse (line 700) and build
the Date (lines 704-711), with the captured month decremented from its
1-indexed form. `none` when the pattern does not match. -/
def replyInstant (ts : String) : Option Int :=
  match parseReplyTime ts with
  | none => none
  | some (y, mo, d, h, mi, s) =>
    some (jsDateMillis (Int.ofNat y) (Int.ofNat mo - 1) (Int.ofNat d)
      (Int.ofNat h) (Int.ofNat mi) (Int.ofNat s))

/-! ## Filter engine (second revision, lines 672-722) -/

/-- The date-range callback of `thread.replies.some` (lines 696-714):
`false` on a missing (or empty, hence unmatchable) `time`, `false` when
the pattern does not match, otherwise the inclusive range test
`replyDate >= startDate && replyDate <= endDate` (line 713). -/
def replyMatchesRange (lo hi : Int) (r : Reply) : Bool :=
  match r.time with
  | none => false
  | some ts =>
    match replyInstant ts with
    | none => false
    | some i => decide (lo ≤ i) && decide (i ≤ hi)

/-- The search callback of `thread.replies.some` (lines 680-683): the
reply body is read unguarded; `user` sits behind the truthiness guard
`reply.user && ...`, so an absent (or empty) `user` is skipped. -/
def replyMatchesTerm (term : String) (r : Reply) : Bool :=
  strIncludes (jsToLowerCase r.reply) term ||
  (match r.user with
   | some u => !(u = "") && strIncludes (jsToLowerCase u) term
   | none => false)

/-- Reading `field.toLowerCase()` of an optional thread field: a missing
field is a TypeError (`undefined.toLowerCase()`), modelled as the
exception of `Except Unit`. -/
def jsLowerField : Option String → Except Unit String
  | some s => Except.ok (jsToLowerCase s)
  | none => Except.error ()

/-- The reply disjunct `thread.replies && thread.replies.some(...)` of the
second revision (lines 680-683), coerced to a boolean by the `if`. -/
def searchReplies (term : String) (replies : Option (List Reply)) : Bool :=
  match replies with
  | some rs => rs.any (replyMatchesTerm term)
  | none => false

/-- `matchesSearch` of `filterThreads` (lines 676-683): the three thread
fields are lower-cased in order with short-circuit `||`, then the replies
are scanned. A missing field that is reached raises. -/
def matchesSearchTerm (term : String) (t : Thread) : Except Unit Bool :=
  (jsLowerField t.post_title).bind fun a =>
  if strIncludes a term then Except.ok true else
  (jsLowerField t.keyword).bind fun b =>
  if strIncludes b term then Except.ok true else
  (jsLowerField t.username).bind fun c =>
  if strIncludes c term then Except.ok true else
  Except.ok (searchReplies term t.replies)

/-- The keyword membership test `activeFilters.keywords.includes(thread.keyword)`
(line 689); `includes(undefined)` on a string array is `false`. -/
def jsKeywordMem (ks : List String) : Option String → Bool
  | some k => jsIncludes ks k
  | none => false

/-- The date-range criterion (lines 694-717): it is only consulted when
both endpoints are set AND the thread has a non-empty reply list;
otherwise the thread passes this criterion vacuously. -/
def dateCriterion (f : FilterState) (t : Thread) : Bool :=
  match f.startDate, f.endDate, t.replies with
  | some lo, some hi, some rs =>
    if 0 < rs.length then rs.any (replyMatchesRange lo hi) else true
  | _, _, _ => true

/-- The keyword check (lines 688-691) followed by the date criterion and
the final `return true` (lines 693-720): what runs once the search-term
block is passed. -/
def passesKeywordAndDate (f : FilterState) (t : Thread) : Except Unit Bool :=
  if decide (f.keywords ≠ []) && !jsKeywordMem f.keywords t.keyword then
    Except.ok false
  else
    Except.ok (dateCriterion f t)

/-- The whole per-thread predicate of `filterThreads` (lines 673-721):
search term (only when non-empty, with `return false` on a miss), then
keyword set, then date range. -/
def threadPasses (f : FilterState) (searchTerm : String) (t : Thread) : Except Unit Bool :=
  if searchTerm = "" then passesKeywordAndDate f t
  else
    (matchesSearchTerm searchTerm t).bind fun m =>
      if m then passesKeywordAndDate f t else Except.ok false

/-- `Array.prototype.filter` with a callback that can throw: elements are
visited left to right and the first exception aborts the whole call. -/
def filterE {α : Type} (p : α → Except Unit Bool) : List α → Except Unit (List α)
  | [] => Except.ok []
  | x :: xs =>
    (p x).bind fun b =>
      (filterE p xs).map fun rest => if b then x :: rest else rest

/-- `filterThreads(searchTerm)` of the second revision (lines 672-722),
with the module state `allThreads` and `activeFilters` passed explicitly. -/
def filterThreads (allThreads : List Thread) (activeFilters : FilterState)
    (searchTerm : String) : Except Unit (List Thread) :=
  filterE (threadPasses activeFilters searchTerm) allThreads

/-! ## The first revision: `performSearch` (lines 246-281) -/

/-- The reply scan of the first revision (lines 265-270): unlike the
second revision it also guards on `thread.replies.length > 0` before
calling `some`, and returns `false` past the guard. -/
def searchRepliesOld (term : String) (replies : Option (List Reply)) : Bool :=
  match replies with
  | some rs => if 0 < rs.length then rs.any (replyMatchesTerm term) else false
  | none => false

/-- The filter callback of the first revision (lines 256-273): title,
keyword and username with early `return true`, then the replies block. -/
def performSearchPred (term : String) (t : Thread) : Except Unit Bool :=
  (jsLowerField t.post_title).bind fun a =>
  if strIncludes a term then Except.ok true else
  (jsLowerField t.keyword).bind fun b =>
  if strIncludes b term then Except.ok true else
  (jsLowerField t.username).bind fun c =>
  if strIncludes c term then Except.ok true else
  Except.ok (searchRepliesOld term t.replies)

/-- The filtering performed by the first revision of `performSearch`
(lines 246-281): an empty term short-circuits to the whole collection,
otherwise `allThreads.filter(...)` runs with the callback above. -/
def performSearch (allThreads : List Thread) (searchTerm : String) :
    Except Unit (List Thread) :=
  if searchTerm = "" then Except.ok allThreads
  else filterE (performSearchPred searchTerm) allThreads

/-! ## `applyFilters` (second revision, lines 743-769)

The date inputs yield, through `valueAsDate`, the instant at 00:00:00 of
the chosen calendar date (zone offset zero in this embedding), and
`endDate.setHours(23, 59, 59, 999)` moves the end instant to the last
millisecond of its day. Selected keyword chips arrive as a string list. -/

/-- Milliseconds from midnight to 23:59:59.999. -/
def endOfDayMillis : Int := 23 * 3600000 + 59 * 60000 + 59 * 1000 + 999

/-- The instant of a calendar date `(y, m, d)` (month 1-indexed, as a
date input holds it) at 00:00:00. -/
def dateInputMillis (y m d : Nat) : Int :=
  daysFromCivil (Int.ofNat y) (Int.ofNat m) (Int.ofNat d) * 86400000

/-- The `activeFilters` record built by `applyFilters` (lines 743-762)
from the selected chips and the two optional calendar dates. -/
def applyFiltersState (selectedKeywords : List String)
    (start stop : Option (Nat × Nat × Nat)) : FilterState :=
  { keywords := selectedKeywords
    startDate := start.map fun p => dateInputMillis p.1 p.2.1 p.2.2
    endDate := stop.map fun p => dateInputMillis p.1 p.2.1 p.2.2 + endOfDayMillis }

/-! ## View controller (second revision)

The visible view is carried by the `hidden` CSS class on the four view
containers plus the filter panel overlay; `currentThread` and the module
state of §3 complete the picture. Detail is active when `threadDetail` is
shown, List/Empty when `threads`/`noResults` is. -/

/-- The mutable page state the second revision manipulates. -/
structure AppState where
  allThreads : List Thread
  activeFilters : FilterState
  searchInputValue : String
  currentThread : Option Thread
  loadingHidden : Bool
  threadsHidden : Bool
  detailHidden : Bool
  noResultsHidden : Bool
  filterPanelHidden : Bool
  filterToggleActive : Bool
deriving DecidableEq

/-- `showNoResults` (lines 832-835). -/
def showNoResults (s : AppState) : AppState :=
  { s with noResultsHidden := false, threadsHidden := true }

/-- `hideNoResults` (lines 840-842). -/
def hideNoResults (s : AppState) : AppState :=
  { s with noResultsHidden := true }

/-- `showThreadsView` (lines 635-648): hide the detail container, show
the list, show or hide the empty message by whether the loaded collection
is empty, and clear `currentThread`. -/
def showThreadsView (s : AppState) : AppState :=
  let s1 := { s with detailHidden := true, threadsHidden := false }
  let s2 := if s1.allThreads.length = 0 then showNoResults s1 else hideNoResults s1
  { s2 with currentThread := none }

/-- The state effect of `showThreadDetail` (lines 555-613): record the
selected thread and flip the container visibilities (lines 606-609). The
DOM content written for the header and replies is presentation only. -/
def showThreadDetail (t : Thread) (s : AppState) : AppState :=
  { s with currentThread := some t
           threadsHidden := true
           noResultsHidden := true
           detailHidden := false }

/-- `toggleFilterPanel` (lines 727-738): toggle the overlay and keep the
toggle button state in sync. -/
def toggleFilterPanel (s : AppState) : AppState :=
  let s1 := { s with filterPanelHidden := !s.filterPanelHidden }
  if s1.filterPanelHidden then { s1 with filterToggleActive := false }
  else { s1 with filterToggleActive := true }

/-- The Escape branch of the keydown listener (lines 483-491): close the
filter panel when it is open; otherwise call `showThreadsView`, but only
when the `threads` container is currently NOT hidden. -/
def handleEscapeKey (s : AppState) : AppState :=
  if !s.filterPanelHidden then toggleFilterPanel s
  else if !s.threadsHidden then showThreadsView s
  else s

/-- The search term `performSearch` derives from the input box (line 654). -/
def searchTermOf (s : AppState) : String :=
  jsToLowerCase s.searchInputValue.trim

/-! ## Concrete data for the documented scenarios -/

/-- Thread A of the §8 date-range scenario: one reply stamped
`2024年5月7日 21:24:39`. -/
def threadA : Thread :=
  { thread_number := "A"
    post_title := some "Thread A"
    keyword := some "general"
    username := some "alice"
    replies := some [{ user := some "bob", time := some "2024年5月7日 21:24:39", reply := "hello" }] }

/-- Thread B of the §8 date-range scenario: no replies. -/
def threadB : Thread :=
  { thread_number := "B"
    post_title := some "Thread B"
    keyword := some "general"
    username := some "carol"
    replies := some [] }

/-- The filter state `applyFilters` builds for the calendar range
2024-05-01 .. 2024-05-31 with no keyword chips selected. -/
def mayRange : FilterState :=
  applyFiltersState [] (some (2024, 5, 1)) (some (2024, 5, 31))

/-- A thread whose `username` field is absent while title and keyword are
present (and match nothing interesting). -/
def threadNoUser : Thread :=
  { thread_number := "N"
    post_title := some "title"
    keyword := some "kw"
    username := none
    replies := some [] }

/-- A thread whose `post_title` field is absent. -/
def threadNoTitle : Thread :=
  { thread_number := "M"
    post_title := none
    keyword := some "kw"
    username := some "u"
    replies := none }

/-! ## Helper lemmas on the filter engine -/

/-- Two pointwise equal callbacks filter alike. -/
theorem filterE_congr {α : Type} {p q : α → Except Unit Bool} (l : List α)
    (h : ∀ x ∈ l, p x = q x) : filterE p l = filterE q l := by
  induction l with
  | nil => rfl
  | cons x xs ih =>
    simp only [filterE]
    rw [h x (List.mem_cons_self x xs), ih (fun y hy => h y (List.mem_cons_of_mem x hy))]

/-- A callback that always succeeds with `true` keeps the list intact. -/
theorem filterE_ok_true {α : Type} (l : List α) :
    filterE (fun _ => Except.ok true) l = Except.ok l := by
  induction l with
  | nil => rfl
  | cons x xs ih => simp only [filterE, ih]; rfl

/-- A callback that never throws filters exactly like `List.filter` on
its boolean part. -/
theorem filterE_eq_filter {α : Type} {p : α → Except Unit Bool} {q : α → Bool}
    (l : List α) (h : ∀ x ∈ l, p x = Except.ok (q x)) :
    filterE p l = Except.ok (l.filter q) := by
  induction l with
  | nil => rfl
  | cons x xs ih =>
    simp only [filterE, List.filter]
    rw [h x (List.mem_cons_self x xs), ih (fun y hy => h y (List.mem_cons_of_mem x hy))]
    cases hq : q x <;> simp [Except.bind, Except.map, hq]

/-- If the callback throws on some element of the list, the whole filter
call throws. -/
theorem filterE_error_of_mem {α : Type} {p : α → Except Unit Bool} {l : List α} {x : α}
    (hx : x ∈ l) (hpx : p x = Except.error ()) : filterE p l = Except.error () := by
  induction l with
  | nil => cases hx
  | cons y ys ih =>
    rcases List.mem_cons.mp hx with h | h
    · subst h
      simp only [filterE, hpx]
      rfl
    · simp only [filterE]
      cases hpy : p y with
      | error e => cases e; rfl
      | ok b =>
        simp only [Except.bind]
        rw [ih h]
        rfl

/-- Membership characterisation of `jsIncludes`. -/
theorem jsIncludes_iff (l : List String) (x : String) :
    jsIncludes l x = true ↔ x ∈ l := by
  induction l with
  | nil => simp [jsIncludes]
  | cons k ks ih =>
    simp only [jsIncludes, Bool.or_eq_true, decide_eq_true_eq, ih, List.mem_cons]
    constructor
    · rintro (h | h)
      · exact Or.inl h.symm
      · exact Or.inr h
    · rintro (h | h)
      · exact Or.inl h.symm
      · exact Or.inr h

/-! ## Helper lemmas on the per-thread predicate -/

/-- With an empty term, the search block of `filterThreads` is skipped. -/
theorem threadPasses_empty_term (f : FilterState) (t : Thread) :
    threadPasses f "" t = passesKeywordAndDate f t := rfl

/-- With no keyword chips selected, the keyword check is vacuous. -/
theorem passesKeywordAndDate_no_keywords (sd ed : Option Int) (t : Thread) :
    passesKeywordAndDate { keywords := [], startDate := sd, endDate := ed } t =
      Except.ok (dateCriterion { keywords := [], startDate := sd, endDate := ed } t) := rfl

/-- With no date range, the date criterion is vacuous. -/
theorem dateCriterion_no_range (ks : List String) (t : Thread) :
    dateCriterion { keywords := ks, startDate := none, endDate := none } t = true := rfl

/-- Binding a boolean-valued `Except` into if-then-else of its value is
the identity. -/
theorem except_bind_if_id (e : Except Unit Bool) :
    (e.bind fun m => if m then Except.ok true else Except.ok false) = e := by
  cases e with
  | error u => rfl
  | ok b => cases b <;> rfl

/-- The reply scans of the two revisions agree: `[].some(...)` is `false`
with or without the extra `length > 0` guard of the first revision. -/
theorem searchRepliesOld_eq (term : String) (o : Option (List Reply)) :
    searchRepliesOld term o = searchReplies term o := by
  cases o with
  | none => rfl
  | some rs =>
    cases rs with
    | nil => rfl
    | cons r tl =>
      simp only [searchRepliesOld, searchReplies, List.length_cons]
      rw [if_pos (Nat.succ_pos tl.length)]

/-- The filter callback of the first revision is the `matchesSearch`
computation of the second. -/
theorem performSearchPred_eq (term : String) (t : Thread) :
    performSearchPred term t = matchesSearchTerm term t := by
  unfold performSearchPred matchesSearchTerm
  simp only [searchRepliesOld_eq]

/-- With only a search term active (no chips, no range), the second
revision's predicate collapses to `matchesSearch` itself. -/
theorem threadPasses_search_only (term : String) (h : term ≠ "") (t : Thread) :
    threadPasses { keywords := [], startDate := none, endDate := none } term t =
      matchesSearchTerm term t := by
  unfold threadPasses
  rw [if_neg h]
  have hkd : passesKeywordAndDate { keywords := [], startDate := none, endDate := none } t =
      Except.ok true := rfl
  rw [hkd]
  exact except_bind_if_id _

/-! ## Claim C5 -/

/-- Claim C5: filtering any collection with the empty filter state (empty
search term, no keyword chips, no date range) returns the collection
itself, in order, with no duplicates; the embedding is purely functional,
so neither the collection nor any thread is mutated. -/
theorem c5_empty_filter_identity (C : List Thread) :
    filterThreads C { keywords := [], startDate := none, endDate := none } "" =
      Except.ok C := by
  unfold filterThreads
  have h1 : filterE (threadPasses { keywords := [], startDate := none, endDate := none } "") C =
      filterE (fun _ => Except.ok true) C :=
    filterE_congr C (fun t _ => rfl)
  rw [h1, filterE_ok_true]

/-! ## Claim C10 -/

/-- Claim C10: with an empty keyword list and no date range, the filtering
of the first revision (`performSearch`, search term only) and of the
second revision (`filterThreads`) produce the same ordered sequence — and
the same TypeError behaviour — for every collection and term. -/
theorem c10_performSearch_refines_filterThreads (threads : List Thread) (term : String) :
    performSearch threads term =
      filterThreads threads { keywords := [], startDate := none, endDate := none } term := by
  unfold performSearch filterThreads
  by_cases h : term = ""
  · subst h
    rw [if_pos rfl]
    have h1 : filterE (threadPasses { keywords := [], startDate := none, endDate := none } "") threads =
        filterE (fun _ => Except.ok true) threads :=
      filterE_congr threads (fun t _ => rfl)
    rw [h1, filterE_ok_true]
  · rw [if_neg h]
    exact filterE_congr threads (fun t _ => by
      rw [performSearchPred_eq, threadPasses_search_only term h])

/-! ## Claim C1 -/

/-- Claim C1 counterexample: in the §8 date-range scenario (range
2024-05-01 .. 2024-05-31 via `applyFilters`, empty search, no chips),
`filterThreads` KEEPS Thread B although it has zero replies: the date
check at line 694 is guarded by `thread.replies.length > 0`, so a
reply-less thread skips it and is included, where the claim expects it to
be excluded. -/
theorem c1_zero_reply_thread_included :
    threadB.replies = some [] ∧
    mayRange.startDate = some (dateInputMillis 2024 5 1) ∧
    mayRange.endDate = some (dateInputMillis 2024 5 31 + endOfDayMillis) ∧
    filterThreads [threadA, threadB] mayRange "" = Except.ok [threadA, threadB] :=
  ⟨rfl, rfl, rfl, rfl⟩

/-- Claim C1 as amended: when both range endpoints are set (and no other
criterion is active), the result holds exactly the threads that either
have an empty (or absent) reply list — these skip the date check and pass
— or have at least one reply whose parsed instant lies in the inclusive
range. -/
theorem c1_date_filter_membership (C : List Thread) (lo hi : Int) :
    ∃ L, filterThreads C { keywords := [], startDate := some lo, endDate := some hi } "" =
        Except.ok L ∧
      ∀ t, t ∈ L ↔ t ∈ C ∧
        (t.replies.getD [] = [] ∨ ∃ r ∈ t.replies.getD [], replyMatchesRange lo hi r = true) := by
  refine ⟨C.filter
    (fun t => dateCriterion { keywords := [], startDate := some lo, endDate := some hi } t),
    filterE_eq_filter C (fun t _ => rfl), ?_⟩
  intro t
  rw [List.mem_filter]
  apply and_congr_right
  intro _
  cases hr : t.replies with
  | none => simp [dateCriterion, hr]
  | some rs =>
    cases rs with
    | nil => simp [dateCriterion, hr]
    | cons r tl =>
      simp [dateCriterion, hr, Nat.succ_pos, List.any_eq_true]

/-! ## Claim C2 -/

/-- Claim C2 counterexample: `threadNoUser` lacks `username`; with the
non-empty term `"zz"` (which matches neither its title nor its keyword)
the search reaches `thread.username.toLowerCase()` and throws, so the
filter returns no result — the claim expected the absent field to act as
the empty string. -/
theorem c2_missing_username_raises :
    threadNoUser.username = none ∧
    filterThreads [threadNoUser] { keywords := [], startDate := none, endDate := none } "zz" =
      Except.error () :=
  ⟨rfl, rfl⟩

/-- Claim C2 as amended: when a thread of the collection has no
`post_title` (and likewise for the other fields once the short-circuit
reaches them) and the search term is non-empty, the search-term check
raises a TypeError and the whole filter call fails instead of returning a
result. -/
theorem c2_missing_title_fails_filter (C : List Thread) (f : FilterState) (term : String)
    (t : Thread) (hterm : term ≠ "") (ht : t ∈ C) (htitle : t.post_title = none) :
    filterThreads C f term = Except.error () := by
  unfold filterThreads
  apply filterE_error_of_mem ht
  unfold threadPasses
  rw [if_neg hterm]
  unfold matchesSearchTerm
  rw [htitle]
  rfl

/-- Witness for the amended C2 at a concrete collection and term. -/
theorem c2_missing_title_fails_filter_witness :
    filterThreads [threadNoTitle] { keywords := [], startDate := none, endDate := none } "x" =
      Except.error () :=
  c2_missing_title_fails_filter [threadNoTitle]
    { keywords := [], startDate := none, endDate := none } "x" threadNoTitle
    (by decide) (List.mem_singleton.mpr rfl) rfl

/-! ## Claim C4 -/

/-- Claim C4: the timestamp of the §8 scenario parses to
`(2024, 5, 7, 21, 24, 39)` and its instant is built with the month
decremented to the 0-indexed Date convention; `"garbage"` yields no
instant; and a reply whose timestamp does not match the pattern simply
fails the date-range test (`false`), it does not fail the operation. -/
theorem c4_timestamp_parse :
    parseReplyTime "2024年5月7日 21:24:39" = some (2024, 5, 7, 21, 24, 39) ∧
    replyInstant "2024年5月7日 21:24:39" = some (jsDateMillis 2024 (5 - 1) 7 21 24 39) ∧
    parseReplyTime "garbage" = none ∧
    ∀ (lo hi : Int) (u : Option String) (body ts : String),
      parseReplyTime ts = none →
      replyMatchesRange lo hi { user := u, time := some ts, reply := body } = false := by
  refine ⟨rfl, rfl, rfl, ?_⟩
  intro lo hi u body ts hts
  simp [replyMatchesRange, replyInstant, hts]

/-- Witness for the conditional clause of C4, at the concrete
non-matching string. -/
theorem c4_timestamp_parse_witness :
    replyMatchesRange 0 0 { user := none, time := some "garbage", reply := "" } = false :=
  c4_timestamp_parse.2.2.2 0 0 none "" "garbage" c4_timestamp_parse.2.2.1

/-! ## Claim C7 -/

/-- With a non-empty keyword list, an empty term and no date range, the
predicate is exactly the keyword membership test. -/
theorem threadPasses_keyword_only (K : List String) (hK : K ≠ []) (t : Thread) :
    threadPasses { keywords := K, startDate := none, endDate := none } "" t =
      Except.ok (jsKeywordMem K t.keyword) := by
  rw [threadPasses_empty_term]
  unfold passesKeywordAndDate
  rw [decide_eq_true hK]
  cases hm : jsKeywordMem K t.keyword with
  | true => simp [hm, dateCriterion_no_range]
  | false => simp [hm]

/-- Claim C7: with a non-empty keyword set (and no other criterion),
every thread the filter keeps has a `keyword` field belonging to the set
(exact, case-sensitive string equality), and no thread whose keyword is
outside the set survives. -/
theorem c7_keyword_filter_membership (C : List Thread) (K : List String) (hK : K ≠ []) :
    ∃ L, filterThreads C { keywords := K, startDate := none, endDate := none } "" =
        Except.ok L ∧
      (∀ t ∈ L, t ∈ C ∧ ∃ k, t.keyword = some k ∧ k ∈ K) ∧
      (∀ t ∈ C, (∀ k, t.keyword = some k → k ∉ K) → t ∉ L) := by
  refine ⟨C.filter (fun t => jsKeywordMem K t.keyword),
    filterE_eq_filter C (fun t _ => threadPasses_keyword_only K hK t), ?_, ?_⟩
  · intro t htL
    obtain ⟨htC, hq⟩ := List.mem_filter.mp htL
    refine ⟨htC, ?_⟩
    cases hk : t.keyword with
    | none => rw [hk] at hq; exact absurd hq (by simp [jsKeywordMem])
    | some k =>
      rw [hk] at hq
      exact ⟨k, rfl, (jsIncludes_iff K k).mp hq⟩
  · intro t htC hout htL
    obtain ⟨_, hq⟩ := List.mem_filter.mp htL
    cases hk : t.keyword with
    | none => rw [hk] at hq; simp [jsKeywordMem] at hq
    | some k =>
      rw [hk] at hq
      exact hout k hk ((jsIncludes_iff K k).mp hq)

/-- Witness for C7 at a concrete collection and keyword set. -/
theorem c7_keyword_filter_membership_witness :
    ∃ L, filterThreads [threadA] { keywords := ["general"], startDate := none, endDate := none } "" =
        Except.ok L ∧
      (∀ t ∈ L, t ∈ [threadA] ∧ ∃ k, t.keyword = some k ∧ k ∈ ["general"]) ∧
      (∀ t ∈ [threadA], (∀ k, t.keyword = some k → k ∉ ["general"]) → t ∉ L) :=
  c7_keyword_filter_membership [threadA] ["general"] (by decide)

/-! ## Claim C8 -/

/-- Claim C8: `applyFilters` keeps the start instant at 00:00:00 of the
start date and normalizes the end instant to 23:59:59.999 of the end
date, and the range test of `filterThreads` is inclusive at both ends: a
reply whose instant equals the start, or equals the normalized end,
satisfies the range. -/
theorem c8_end_of_day_inclusive (ks : List String) (sy sm sd ey em ed : Nat) :
    (applyFiltersState ks (some (sy, sm, sd)) (some (ey, em, ed))).startDate =
        some (dateInputMillis sy sm sd) ∧
    (applyFiltersState ks (some (sy, sm, sd)) (some (ey, em, ed))).endDate =
        some (dateInputMillis ey em ed + endOfDayMillis) ∧
    endOfDayMillis = 86399999 ∧
    ∀ (lo hi i : Int) (u : Option String) (body ts : String),
      replyInstant ts = some i → lo ≤ hi → (i = lo ∨ i = hi) →
      replyMatchesRange lo hi { user := u, time := some ts, reply := body } = true := by
  refine ⟨rfl, rfl, rfl, ?_⟩
  intro lo hi i u body ts hts hle hcase
  have h1 : replyMatchesRange lo hi { user := u, time := some ts, reply := body } =
      (decide (lo ≤ i) && decide (i ≤ hi)) := by
    simp [replyMatchesRange, hts]
  rw [h1]
  rcases hcase with h | h
  · subst h
    simp [hle]
  · subst h
    simp [hle]

/-- Witness for the inclusivity clause of C8 at the concrete instant of
the §8 scenario, taken as both range endpoints. -/
theorem c8_end_of_day_inclusive_witness :
    replyMatchesRange (jsDateMillis 2024 4 7 21 24 39) (jsDateMillis 2024 4 7 21 24 39)
      { user := none, time := some "2024年5月7日 21:24:39", reply := "" } = true :=
  (c8_end_of_day_inclusive [] 2024 5 1 2024 5 31).2.2.2
    (jsDateMillis 2024 4 7 21 24 39) (jsDateMillis 2024 4 7 21 24 39)
    (jsDateMillis 2024 4 7 21 24 39) none "" "2024年5月7日 21:24:39"
    rfl (le_refl _) (Or.inl rfl)

/-! ## Claim C9 -/

/-- `showThreadsView` touches only the visibility flags and
`currentThread`. -/
theorem showThreadsView_frame (s : AppState) :
    (showThreadsView s).allThreads = s.allThreads ∧
    (showThreadsView s).activeFilters = s.activeFilters ∧
    (showThreadsView s).searchInputValue = s.searchInputValue := by
  unfold showThreadsView showNoResults hideNoResults
  dsimp only
  split <;> exact ⟨rfl, rfl, rfl⟩

/-- Claim C9: selecting a thread (Detail) and coming back (List) leaves
the loaded collection, the active filter state and the search input
untouched, so the filtered set recomputed after Back equals the one
before the selection. -/
theorem c9_detail_round_trip (s : AppState) (t : Thread) :
    (showThreadsView (showThreadDetail t s)).activeFilters = s.activeFilters ∧
    (showThreadsView (showThreadDetail t s)).searchInputValue = s.searchInputValue ∧
    (showThreadsView (showThreadDetail t s)).allThreads = s.allThreads ∧
    filterThreads (showThreadsView (showThreadDetail t s)).allThreads
        (showThreadsView (showThreadDetail t s)).activeFilters
        (searchTermOf (showThreadsView (showThreadDetail t s))) =
      filterThreads s.allThreads s.activeFilters (searchTermOf s) := by
  obtain ⟨h1, h2, h3⟩ := showThreadsView_frame (showThreadDetail t s)
  have e1 : (showThreadDetail t s).allThreads = s.allThreads := rfl
  have e2 : (showThreadDetail t s).activeFilters = s.activeFilters := rfl
  have e3 : (showThreadDetail t s).searchInputValue = s.searchInputValue := rfl
  refine ⟨h2.trans e2, h3.trans e3, h1.trans e1, ?_⟩
  rw [h1, e1, h2, e2]
  unfold searchTermOf
  rw [h3, e3]

/-! ## Claim C3 -/

/-- A concrete Detail state: detail container visible, thread list and
empty message hidden, filter panel closed. -/
def detailState : AppState :=
  { allThreads := [threadA]
    activeFilters := { keywords := [], startDate := none, endDate := none }
    searchInputValue := ""
    currentThread := some threadA
    loadingHidden := true
    threadsHidden := true
    detailHidden := false
    noResultsHidden := true
    filterPanelHidden := true
    filterToggleActive := false }

/-- The same Detail state with the filter panel overlay open. -/
def detailStatePanelOpen : AppState :=
  { detailState with filterPanelHidden := false, filterToggleActive := true }

/-- Claim C3, evaluated on the code: with the panel open, Escape closes
the panel and leaves the Detail view (and the rest of the state) alone —
that half of the claim matches the code. But with the panel closed and
the view in Detail, Escape leaves the state COMPLETELY unchanged: the
handler at line 487 only calls `showThreadsView` when the `threads`
container is not hidden, and in Detail it is hidden, so the claimed
Detail-to-List transition never fires. -/
theorem c3_escape_key_evaluation :
    (handleEscapeKey detailStatePanelOpen).filterPanelHidden = true ∧
    (handleEscapeKey detailStatePanelOpen).detailHidden = false ∧
    (handleEscapeKey detailStatePanelOpen).threadsHidden = true ∧
    (handleEscapeKey detailStatePanelOpen).currentThread = some threadA ∧
    handleEscapeKey detailState = detailState ∧
    detailState.detailHidden = false ∧
    detailState.threadsHidden = true :=
  ⟨rfl, rfl, rfl, rfl, rfl, rfl, rfl⟩

/-! ## Claim C6 -/

/-- Lower-casing the empty string gives the empty string. -/
theorem jsToLowerCase_empty : jsToLowerCase "" = "" := rfl

/-- A non-empty needle never occurs in the empty string. -/
theorem strIncludes_empty (needle : String) (h : needle ≠ "") :
    strIncludes "" needle = false := by
  cases needle with
  | mk data =>
    cases data with
    | nil => exact absurd rfl h
    | cons c cs => rfl

/-- The boolean `matchesSearch` computes once the three thread fields are
known to be present (proof-side projection of `matchesSearchTerm`). -/
def searchHit (term : String) (t : Thread) : Bool :=
  strIncludes (jsToLowerCase (t.post_title.getD "")) term ||
  strIncludes (jsToLowerCase (t.keyword.getD "")) term ||
  strIncludes (jsToLowerCase (t.username.getD "")) term ||
  searchReplies term t.replies

/-- On a thread with all three fields present, `matchesSearch` succeeds
with the `searchHit` boolean. -/
theorem matchesSearchTerm_ok (term : String) (t : Thread) (a b c : String)
    (ha : t.post_title = some a) (hb : t.keyword = some b) (hc : t.username = some c) :
    matchesSearchTerm term t = Except.ok (searchHit term t) := by
  unfold matchesSearchTerm searchHit
  rw [ha, hb, hc]
  simp only [jsLowerField, Except.bind, Option.getD_some]
  cases hA : strIncludes (jsToLowerCase a) term <;>
    cases hB : strIncludes (jsToLowerCase b) term <;>
      cases hC : strIncludes (jsToLowerCase c) term <;>
        simp

/-- On such a thread, with only the search criterion active, the whole
predicate succeeds with the `searchHit` boolean. -/
theorem threadPasses_search_hit (term : String) (h : term ≠ "") (t : Thread)
    (a b c : String)
    (ha : t.post_title = some a) (hb : t.keyword = some b) (hc : t.username = some c) :
    threadPasses { keywords := [], startDate := none, endDate := none } term t =
      Except.ok (searchHit term t) := by
  rw [threadPasses_search_only term h, matchesSearchTerm_ok term t a b c ha hb hc]

/-- Characterisation of the reply-level search callback: the body
matches, or the `user` field is present and matches; an absent `user` is
skipped (and an empty one can never match a non-empty term). -/
theorem replyMatchesTerm_iff (term : String) (hne : term ≠ "") (r : Reply) :
    replyMatchesTerm term r = true ↔
      (strIncludes (jsToLowerCase r.reply) term = true ∨
       ∃ u, r.user = some u ∧ strIncludes (jsToLowerCase u) term = true) := by
  cases hu : r.user with
  | none => simp [replyMatchesTerm, hu]
  | some u =>
    simp only [replyMatchesTerm, hu]
    have key : (!(decide (u = "")) && strIncludes (jsToLowerCase u) term) =
        strIncludes (jsToLowerCase u) term := by
      by_cases hu0 : u = ""
      · subst hu0
        have h0 : strIncludes (jsToLowerCase "") term = false := by
          rw [jsToLowerCase_empty]
          exact strIncludes_empty term hne
        rw [h0, Bool.and_false]
      · simp [hu0]
    rw [key]
    simp only [Bool.or_eq_true, Option.some.injEq]
    constructor
    · rintro (h | h)
      · exact Or.inl h
      · exact Or.inr ⟨u, rfl, h⟩
    · rintro (h | ⟨v, rfl, h⟩)
      · exact Or.inl h
      · exact Or.inr h

/-- Characterisation of the reply scan over the optional reply list. -/
theorem searchReplies_iff (term : String) (hne : term ≠ "") (o : Option (List Reply)) :
    searchReplies term o = true ↔
      ∃ rs, o = some rs ∧ ∃ r ∈ rs,
        (strIncludes (jsToLowerCase r.reply) term = true ∨
         ∃ u, r.user = some u ∧ strIncludes (jsToLowerCase u) term = true) := by
  cases o with
  | none => simp [searchReplies]
  | some rs =>
    simp only [searchReplies, List.any_eq_true, Option.some.injEq]
    constructor
    · rintro ⟨r, hr, hm⟩
      exact ⟨rs, rfl, r, hr, (replyMatchesTerm_iff term hne r).mp hm⟩
    · rintro ⟨rs2, rfl, r, hr, hm⟩
      exact ⟨r, hr, (replyMatchesTerm_iff term hne r).mpr hm⟩

/-- Characterisation of `searchHit` on a thread with its fields present. -/
theorem searchHit_iff (term : String) (hne : term ≠ "") (t : Thread) (a b c : String)
    (ha : t.post_title = some a) (hb : t.keyword = some b) (hc : t.username = some c) :
    searchHit term t = true ↔
      (strIncludes (jsToLowerCase a) term = true ∨
       strIncludes (jsToLowerCase b) term = true ∨
       strIncludes (jsToLowerCase c) term = true ∨
       ∃ rs, t.replies = some rs ∧ ∃ r ∈ rs,
         (strIncludes (jsToLowerCase r.reply) term = true ∨
          ∃ u, r.user = some u ∧ strIncludes (jsToLowerCase u) term = true)) := by
  unfold searchHit
  rw [ha, hb, hc]
  simp only [Option.getD_some, Bool.or_eq_true, or_assoc]
  exact or_congr Iff.rfl (or_congr Iff.rfl (or_congr Iff.rfl
    (searchReplies_iff term hne t.replies)))

/-- Claim C6: with a non-empty (already lower-cased, as `performSearch`
produces it) search term and no other active criterion, on a collection
whose threads carry their three text fields, the result holds exactly the
threads where the term occurs case-insensitively in the title, keyword or
username, or in some reply body, or in some present reply user field. -/
theorem c6_search_term_membership (C : List Thread) (term : String)
    (hne : term ≠ "") (hlow : jsToLowerCase term = term)
    (hfields : ∀ t ∈ C, t.post_title ≠ none ∧ t.keyword ≠ none ∧ t.username ≠ none) :
    ∃ L, filterThreads C { keywords := [], startDate := none, endDate := none } term =
        Except.ok L ∧
      ∀ t, t ∈ L ↔ t ∈ C ∧
        ((∃ a, t.post_title = some a ∧
            strIncludes (jsToLowerCase a) (jsToLowerCase term) = true) ∨
         (∃ b, t.keyword = some b ∧
            strIncludes (jsToLowerCase b) (jsToLowerCase term) = true) ∨
         (∃ c, t.username = some c ∧
            strIncludes (jsToLowerCase c) (jsToLowerCase term) = true) ∨
         (∃ rs, t.replies = some rs ∧ ∃ r ∈ rs,
            (strIncludes (jsToLowerCase r.reply) (jsToLowerCase term) = true ∨
             ∃ u, r.user = some u ∧
               strIncludes (jsToLowerCase u) (jsToLowerCase term) = true))) := by
  rw [hlow]
  refine ⟨C.filter (searchHit term), filterE_eq_filter C ?_, ?_⟩
  · intro t ht
    obtain ⟨h1, h2, h3⟩ := hfields t ht
    obtain ⟨a, ha⟩ := Option.ne_none_iff_exists'.mp h1
    obtain ⟨b, hb⟩ := Option.ne_none_iff_exists'.mp h2
    obtain ⟨c, hc⟩ := Option.ne_none_iff_exists'.mp h3
    exact threadPasses_search_hit term hne t a b c ha hb hc
  · intro t
    rw [List.mem_filter]
    constructor
    · rintro ⟨htC, hq⟩
      refine ⟨htC, ?_⟩
      obtain ⟨h1, h2, h3⟩ := hfields t htC
      obtain ⟨a, ha⟩ := Option.ne_none_iff_exists'.mp h1
      obtain ⟨b, hb⟩ := Option.ne_none_iff_exists'.mp h2
      obtain ⟨c, hc⟩ := Option.ne_none_iff_exists'.mp h3
      rcases (searchHit_iff term hne t a b c ha hb hc).mp hq with h | h | h | h
      · exact Or.inl ⟨a, ha, h⟩
      · exact Or.inr (Or.inl ⟨b, hb, h⟩)
      · exact Or.inr (Or.inr (Or.inl ⟨c, hc, h⟩))
      · exact Or.inr (Or.inr (Or.inr h))
    · rintro ⟨htC, hdis⟩
      refine ⟨htC, ?_⟩
      obtain ⟨h1, h2, h3⟩ := hfields t htC
      obtain ⟨a, ha⟩ := Option.ne_none_iff_exists'.mp h1
      obtain ⟨b, hb⟩ := Option.ne_none_iff_exists'.mp h2
      obtain ⟨c, hc⟩ := Option.ne_none_iff_exists'.mp h3
      apply (searchHit_iff term hne t a b c ha hb hc).mpr
      rcases hdis with ⟨a2, ha2, h⟩ | ⟨b2, hb2, h⟩ | ⟨c2, hc2, h⟩ | h
      · rw [ha] at ha2
        have e : a = a2 := Option.some.inj ha2
        subst e
        exact Or.inl h
      · rw [hb] at hb2
        have e : b = b2 := Option.some.inj hb2
        subst e
        exact Or.inr (Or.inl h)
      · rw [hc] at hc2
        have e : c = c2 := Option.some.inj hc2
        subst e
        exact Or.inr (Or.inr (Or.inl h))
      · exact Or.inr (Or.inr (Or.inr h))

/-- Witness for C6 at the concrete collection `[threadA]` and the term
`"hello"` (which occurs in the reply body of Thread A). -/
theorem c6_search_term_membership_witness :
    ∃ L, filterThreads [threadA] { keywords := [], startDate := none, endDate := none } "hello" =
        Except.ok L ∧
      ∀ t, t ∈ L ↔ t ∈ [threadA] ∧
        ((∃ a, t.post_title = some a ∧
            strIncludes (jsToLowerCase a) (jsToLowerCase "hello") = true) ∨
         (∃ b, t.keyword = some b ∧
            strIncludes (jsToLowerCase b) (jsToLowerCase "hello") = true) ∨
         (∃ c, t.username = some c ∧
            strIncludes (jsToLowerCase c) (jsToLowerCase "hello") = true) ∨
         (∃ rs, t.replies = some rs ∧ ∃ r ∈ rs,
            (strIncludes (jsToLowerCase r.reply) (jsToLowerCase "hello") = true ∨
             ∃ u, r.user = some u ∧
               strIncludes (jsToLowerCase u) (jsToLowerCase "hello") = true))) :=
  c6_search_term_membership [threadA] "hello" (by decide) rfl (by decide)
